import Mathlib

/-!
Shallow embedding of the analysis request/result orchestration engine of the
cododex-code-refiner repository (src/App.tsx together with the data model in
the types module).  The React component's state hooks become the fields of
`AppState`; the event handlers (`handleAnalyze`, the button/select/textarea
handlers) become pure state transformers that additionally report the list of
side effects they perform; asynchronous completion of the network call is an
explicit `settle` event carrying the call's outcome.
-/

/-- Severity enum from the types module (`IssueSeverity`). -/
inductive IssueSeverity
  | CRITICAL
  | HIGH
  | MEDIUM
  | LOW
deriving DecidableEq

/-- Category enum from the types module (`IssueCategory`). -/
inductive IssueCategory
  | BUG
  | SECURITY
  | PERFORMANCE
  | STYLE
  | BEST_PRACTICE
deriving DecidableEq

/-- One finding, from the types module (`CodeIssue`).  `line` is the 1-based
source line number as reported by the remote service; it is an arbitrary
integer from the engine's point of view. -/
structure CodeIssue where
  line : Int
  category : IssueCategory
  severity : IssueSeverity
  description : String
  suggestion : String
deriving DecidableEq

/-- Aggregate scores, from the types module (`ReviewMetrics`). -/
structure ReviewMetrics where
  securityScore : Int
  performanceScore : Int
  maintainabilityScore : Int
  overallHealth : Int
deriving DecidableEq

/-- A complete analysis result, from the types module (`CodeReviewResult`). -/
structure CodeReviewResult where
  summary : String
  issues : List CodeIssue
  metrics : ReviewMetrics
  optimizedCode : String
  languageDetected : String
deriving DecidableEq

/-- Log levels of the activity log (the `type` field of a log entry in
App.tsx: `'info' | 'warn' | 'err'`). -/
inductive LogType
  | info
  | warn
  | err
deriving DecidableEq

/-- One activity-log entry (`{msg, type}` objects held in the `logs` state). -/
structure LogEntry where
  msg : String
  type : LogType
deriving DecidableEq

/-- The last `n` elements of a list, in order: JavaScript `l.slice(-n)`. -/
def sliceLast (n : Nat) (l : List α) : List α :=
  l.drop (l.length - n)

/-- App.tsx `addLog`: `setLogs(prev => [...prev.slice(-24), { msg, type }])`.
Keeps the most recent 24 entries and appends the new one. -/
def addLog (logs : List LogEntry) (e : LogEntry) : List LogEntry :=
  sliceLast 24 logs ++ [e]

/-- JavaScript whitespace, as used by `String.prototype.trim`: ASCII
whitespace, NBSP, the Unicode space separators, line/paragraph separators and
the BOM (code points given in decimal). -/
def jsWhitespace (c : Char) : Bool :=
  c.toNat = 9 || c.toNat = 10 || c.toNat = 11 || c.toNat = 12 || c.toNat = 13 ||
  c.toNat = 32 || c.toNat = 160 || c.toNat = 5760 ||
  (8192 ≤ c.toNat && c.toNat ≤ 8202) ||
  c.toNat = 8232 || c.toNat = 8233 || c.toNat = 8239 || c.toNat = 8287 ||
  c.toNat = 12288 || c.toNat = 65279

/-- JavaScript `code.trim()`: removes whitespace from both ends. -/
def jsTrim (s : String) : String :=
  String.mk (((s.data.dropWhile jsWhitespace).reverse.dropWhile jsWhitespace).reverse)

/-- JavaScript `code.split('\n')` on the underlying character list.  Splitting
the empty string yields `[[]]` (one empty piece), exactly as in JavaScript. -/
def jsSplitNlChars : List Char → List (List Char)
  | [] => [[]]
  | c :: cs =>
    if c = '\n' then [] :: jsSplitNlChars cs
    else
      match jsSplitNlChars cs with
      | [] => [[c]]
      | h :: t => (c :: h) :: t

/-- App.tsx line 74: `const lines = useMemo(() => code.split('\n'), [code])`. -/
def jsSplitNl (s : String) : List String :=
  (jsSplitNlChars s.data).map (fun l => String.mk l)

/-- The persona mode union type of App.tsx:
`'mentor' | 'strict' | 'debugger' | 'performance' | 'tester'`. -/
inductive Mode
  | mentor
  | strict
  | debugger
  | performance
  | tester
deriving DecidableEq

/-- The string value of a mode (modes are plain strings in the source). -/
def Mode.str : Mode → String
  | .mentor => "mentor"
  | .strict => "strict"
  | .debugger => "debugger"
  | .performance => "performance"
  | .tester => "tester"

/-- The persona buttons render exactly these four modes (App.tsx line 124). -/
def personaModes : List Mode :=
  [.strict, .mentor, .debugger, .performance]

/-- The language catalog (`SUPPORTED_LANGUAGES`, App.tsx lines 18-24). -/
def SUPPORTED_LANGUAGES : List String :=
  ["Auto-detect", "C++", "Java", "C", "Python"]

/-- Body of the sample snippet `'Memory Leak (JS)'` (App.tsx line 13). -/
def sampleMemoryLeak : String :=
  "let cache = [];\nfunction processData(data) \x7b\n  cache.push(data);\n  return data.toUpperCase();\n\x7d\nsetInterval(() => processData(\"data\"), 100);"

/-- Body of the sample snippet `'SQL Injection (Py)'` (App.tsx line 14). -/
def sampleSqlInjection : String :=
  "import sqlite3\ndef get_user(user_id):\n  conn = sqlite3.connect(\"db.sqlite\")\n  query = f\"SELECT * FROM users WHERE id = \x27\x7buser_id\x7d\x27\"\n  conn.cursor().execute(query)\n  return cursor.fetchone()"

/-- Body of the sample snippet `'Inefficient Loop (TS)'` (App.tsx line 15). -/
def sampleInefficientLoop : String :=
  "function findDuplicates(arr: number[]) \x7b\n  const dups = [];\n  for (let i = 0; i < arr.length; i++) \x7b\n    for (let j = i + 1; j < arr.length; j++) \x7b\n      if (arr[i] === arr[j] && !dups.includes(arr[i])) dups.push(arr[i]);\n    \x7d\n  \x7d\n  return dups;\n\x7d"

/-- The sample snippet map (`SAMPLES`, App.tsx lines 12-16). -/
def SAMPLES : List (String × String) :=
  [("Memory Leak (JS)", sampleMemoryLeak),
   ("SQL Injection (Py)", sampleSqlInjection),
   ("Inefficient Loop (TS)", sampleInefficientLoop)]

/-- Parameters of an issued analysis request: the arguments of
`analyzeCode(code, language, provider, mode, isAlternative)` (App.tsx line 63). -/
structure PendingReq where
  code : String
  language : String
  provider : String
  mode : Mode
  isAlternative : Bool
deriving DecidableEq

/-- Outcome of the awaited `analyzeCode` call: the promise either resolves
with a `CodeReviewResult` or rejects with an error whose `message` is read in
the catch block. -/
inductive Outcome
  | ok (data : CodeReviewResult)
  | err (message : String)
deriving DecidableEq

/-- Observable side effects performed by the handlers: React state-setter
calls and the network invocation. -/
inductive Effect
  | setLoading (b : Bool)
  | setError (e : Option String)
  | logAppend (msg : String) (type : LogType)
  | netAnalyze (code language provider : String) (mode : Mode) (isAlternative : Bool)
  | setResult (r : Option CodeReviewResult)
deriving DecidableEq

/-- The component state of App.tsx (one field per `useState` hook), extended
with `pending`: the list of issued-but-unsettled `analyzeCode` calls, which in
the source lives implicitly in the unresolved promises. -/
structure AppState where
  code : String
  language : String
  provider : String
  mode : Mode
  loading : Bool
  result : Option CodeReviewResult
  error : Option String
  isBackendOnline : Bool
  logs : List LogEntry
  pending : List PendingReq
deriving DecidableEq

/-- The default buffer contents (initial value of the `code` state, App.tsx
line 27). -/
def defaultCode : String :=
  "// Senior Developer optimized snippet...\nasync function fetchUserData(id: string) \x7b\n  const user = await db.users.findUnique(\x7b where: \x7b id \x7d \x7d);\n  if (!user) throw new Error(\"404\");\n  return user;\n\x7d"

/-- The initial component state (App.tsx lines 27-36). -/
def initState : AppState :=
  { code := defaultCode
    language := "Auto-detect"
    provider := "gemini"
    mode := .strict
    loading := false
    result := none
    error := none
    isBackendOnline := false
    logs := []
    pending := [] }

/-- The synchronous prefix of `handleAnalyze` (App.tsx lines 56-63): guard on
blank code, then `setLoading(true)`, `setError(null)`, the initiation log
entry, and the `analyzeCode` network call (recorded in `pending`). -/
def handleAnalyzeStart (isAlternative : Bool) (s : AppState) : AppState × List Effect :=
  if jsTrim s.code = "" then (s, [])
  else
    let msg := (if isAlternative then "Regenerating alternative" else "Initiating") ++ " " ++
      s.mode.str ++ " analysis for " ++ s.language ++ "..."
    ({ s with
        loading := true
        error := none
        logs := addLog s.logs ⟨msg, .info⟩
        pending := s.pending ++ [⟨s.code, s.language, s.provider, s.mode, isAlternative⟩] },
     [.setLoading true, .setError none, .logAppend msg .info,
      .netAnalyze s.code s.language s.provider s.mode isAlternative])

/-- The continuation of `handleAnalyze` once the awaited call settles (App.tsx
lines 63-71): on resolution `setResult(data)` plus the completion log entry,
on rejection `setError(err.message)` plus the error-level log entry, and in
both cases `setLoading(false)` from the finally block. -/
def handleAnalyzeSettle (o : Outcome) (s : AppState) : AppState × List Effect :=
  match o with
  | .ok data =>
    let msg := "Analysis complete: " ++ toString data.issues.length ++ " findings."
    ({ s with
        result := some data
        logs := addLog s.logs ⟨msg, .info⟩
        loading := false },
     [.setResult (some data), .logAppend msg .info, .setLoading false])
  | .err m =>
    ({ s with
        error := some m
        logs := addLog s.logs ⟨"Error: " ++ m, .err⟩
        loading := false },
     [.setError (some m), .logAppend ("Error: " ++ m) .err, .setLoading false])

/-- One full submission whose network call settles with outcome `o`. -/
def submitRun (b : Bool) (o : Outcome) (s : AppState) : AppState :=
  (handleAnalyzeSettle o (handleAnalyzeStart b s).1).1

/-- User-interface and completion events.  A click event only has an effect
when the corresponding control is operable in the rendered UI: the Analyze
button carries `disabled={loading}` (App.tsx line 175), and the Regenerate
Alternative button is only rendered when no request is loading and a result
is present (App.tsx lines 185 and 209-214). -/
inductive Event
  | clickAnalyze
  | clickRegenerate
  | settle (i : Nat) (o : Outcome)
  | typeText (t : String)
  | loadFile (t : String)
  | selectSample (k : String)
  | clickClear
  | initDone (online : Bool)
  | setLanguageTo (l : String)
  | setModeTo (m : Mode)
deriving DecidableEq

/-- The event-step function of the component.  Each case is the corresponding
handler in App.tsx: the Analyze button (line 175, disabled while loading), the
Regenerate Alternative button (lines 185, 209-214, rendered only when idle
with a result), promise settlement (lines 62-71), the textarea onChange (line
163), the file-input onload (line 97), the sample select (line 112), the Clear
button (line 145), the startup probe effect (lines 47-54), the language select
(line 81) and the persona buttons (line 125). -/
def step (s : AppState) (e : Event) : AppState × List Effect :=
  match e with
  | .clickAnalyze =>
    if s.loading then (s, []) else handleAnalyzeStart false s
  | .clickRegenerate =>
    if s.loading then (s, [])
    else
      match s.result with
      | none => (s, [])
      | some _ => handleAnalyzeStart true s
  | .settle i o =>
    match s.pending[i]? with
    | none => (s, [])
    | some _ => handleAnalyzeSettle o { s with pending := s.pending.eraseIdx i }
  | .typeText t => ({ s with code := t }, [])
  | .loadFile t => ({ s with code := t, result := none }, [])
  | .selectSample k =>
    match SAMPLES.lookup k with
    | some body => ({ s with code := body, result := none }, [])
    | none => (s, [])
  | .clickClear => ({ s with code := "", result := none }, [])
  | .initDone online =>
    ({ s with
        isBackendOnline := online
        logs := addLog s.logs ⟨"Engine v1.2.0 initialized.", .info⟩ }, [])
  | .setLanguageTo l =>
    if l ∈ SUPPORTED_LANGUAGES then ({ s with language := l }, []) else (s, [])
  | .setModeTo m =>
    if m ∈ personaModes then ({ s with mode := m }, []) else (s, [])

/-- The state reached after a sequence of events. -/
def runState (s : AppState) (es : List Event) : AppState :=
  es.foldl (fun s e => (step s e).1) s

/-- The gutter marker predicate of App.tsx lines 151-158: line `i+1` carries a
marker iff some issue of the current result reports line `i+1`; with no result
no line is marked.  `annotate` collects the marked 1-based line numbers for a
given line count and issue list. -/
def annotate (lineCount : Nat) (issues : List CodeIssue) : List Nat :=
  ((List.range lineCount).map (fun i => i + 1)).filter
    (fun ln => issues.any (fun iss => iss.line == (ln : Int)))

/-- Issues of an optional result (`result?.issues`, empty when `result` is
null). -/
def issuesOf (r : Option CodeReviewResult) : List CodeIssue :=
  match r with
  | some d => d.issues
  | none => []

/-- The set of marked gutter lines of a state (App.tsx lines 74 and 151-158). -/
def gutterMarks (s : AppState) : List Nat :=
  annotate (jsSplitNl s.code).length (issuesOf s.result)

/-- The line count shown by the telemetry footer (`lines.length`, App.tsx
line 173). -/
def telemetryLineCount (s : AppState) : Nat :=
  (jsSplitNl s.code).length

/-- The result exposed to the result panel: App.tsx line 185 renders the
result only when not loading. -/
def renderedResult (s : AppState) : Option CodeReviewResult :=
  if s.loading then none else s.result

/-- The backend status label (App.tsx lines 105-106). -/
def backendLabel (s : AppState) : String :=
  if s.isBackendOnline then "Hybrid Bridge" else "Cloud Native"

/-- The request lifecycle states of the specification's data model. -/
inductive RequestState
  | idle
  | inFlight
  | succeeded (r : CodeReviewResult)
  | failed (message : String)
deriving DecidableEq

/-- The `RequestState` view derived from the component state: `loading` is the
in-flight marker; otherwise a stored error message means the last settled call
failed (the retained `result` is kept visible alongside it), a stored result
with no error means it succeeded, and a fresh state is idle. -/
def requestStateOf (s : AppState) : RequestState :=
  if s.loading then .inFlight
  else
    match s.error with
    | some m => .failed m
    | none =>
      match s.result with
      | some r => .succeeded r
      | none => .idle

/-- The single-flight invariant of the component: at most one analyze call is
ever unsettled, and `loading` is set exactly while one is. -/
def SingleFlight (s : AppState) : Prop :=
  s.pending.length ≤ 1 ∧ (s.loading = true ↔ s.pending ≠ [])

/-- A concrete result used to instantiate witnesses. -/
def demoResult : CodeReviewResult :=
  { summary := "ok"
    issues := []
    metrics := { securityScore := 90, performanceScore := 80, maintainabilityScore := 70, overallHealth := 85 }
    optimizedCode := "x"
    languageDetected := "TypeScript" }

/-- A concrete issue on a given line, used for the annotation example. -/
def demoIssue (n : Int) : CodeIssue :=
  { line := n, category := .BUG, severity := .LOW, description := "", suggestion := "" }

/-! ### Helper lemmas -/

/-- `addLog` never produces more than 25 entries, whatever the input length. -/
theorem addLog_length_le (l : List LogEntry) (e : LogEntry) :
    (addLog l e).length ≤ 25 := by
  simp [addLog, sliceLast]
  omega

/-- The freshly appended entry is a member of the updated log. -/
theorem mem_addLog_self (l : List LogEntry) (e : LogEntry) : e ∈ addLog l e := by
  simp [addLog]

/-- Taking the last `n` of an append ignores the left part entirely when the
right part already has at least `n` elements. -/
theorem sliceLast_append {α} (n : Nat) (x y : List α) (h : n ≤ y.length) :
    sliceLast n (x ++ y) = sliceLast n y := by
  unfold sliceLast
  rw [List.length_append, List.drop_append_eq_append_drop,
    List.drop_eq_nil_of_le (by omega), List.nil_append]
  congr 1
  omega

/-- Appending through `addLog` and then keeping the last 25 entries is the
same as keeping the last 25 of the plain append. -/
theorem sliceLast25_addLog (l : List LogEntry) (e : LogEntry) (z : List LogEntry) :
    sliceLast 25 (addLog l e ++ z) = sliceLast 25 (l ++ e :: z) := by
  rcases le_or_lt l.length 24 with h | h
  · have hl : addLog l e ++ z = l ++ e :: z := by
      simp [addLog, sliceLast, Nat.sub_eq_zero_of_le h]
    rw [hl]
  · have e1 : addLog l e ++ z = sliceLast 24 l ++ e :: z := by
      simp [addLog]
    have hlen : 25 ≤ (sliceLast 24 l ++ e :: z).length := by
      simp [sliceLast, List.length_drop]
      omega
    have e2 : l ++ e :: z = l.take (l.length - 24) ++ (sliceLast 24 l ++ e :: z) := by
      rw [← List.append_assoc]
      unfold sliceLast
      rw [List.take_append_drop]
    rw [e1, e2, sliceLast_append 25 _ _ hlen]

/-- Folding `addLog` over a list of entries retains exactly the last 25 of
everything ever appended. -/
theorem foldl_addLog_sliceLast (es : List LogEntry) :
    ∀ l : List LogEntry, l.length ≤ 25 → es.foldl addLog l = sliceLast 25 (l ++ es) := by
  induction es with
  | nil =>
    intro l h
    simp [sliceLast, Nat.sub_eq_zero_of_le h]
  | cons e es ih =>
    intro l h
    rw [List.foldl_cons, ih (addLog l e) (addLog_length_le l e), sliceLast25_addLog]

/-- The newline splitter never returns an empty list of pieces. -/
theorem jsSplitNlChars_ne_nil (l : List Char) : jsSplitNlChars l ≠ [] := by
  cases l with
  | nil => simp [jsSplitNlChars]
  | cons c cs =>
    simp only [jsSplitNlChars]
    split
    · simp
    · split <;> simp

/-- A list of length at most one with a present index collapses to the empty
list after erasing that index. -/
theorem pending_eraseIdx_nil (l : List PendingReq) (i : Nat) (p : PendingReq)
    (h1 : l.length ≤ 1) (h2 : l[i]? = some p) : l.eraseIdx i = [] := by
  rcases l with _ | ⟨a, _ | ⟨b, t⟩⟩
  · simp at h2
  · cases i with
    | zero => rfl
    | succ n => simp at h2
  · simp only [List.length_cons] at h1
    omega

/-- Starting a submission from a quiescent state preserves the single-flight
invariant. -/
theorem start_single_flight (b : Bool) (s : AppState) (hInv : SingleFlight s)
    (hl : s.loading = false) : SingleFlight (handleAnalyzeStart b s).1 := by
  have hp : s.pending = [] := by
    by_contra hne
    have := hInv.2.mpr hne
    rw [hl] at this
    exact Bool.false_ne_true this
  unfold handleAnalyzeStart
  split
  · exact hInv
  · refine ⟨?_, ?_⟩ <;> simp [hp]

/-- Every event preserves the single-flight invariant. -/
theorem step_single_flight (s : AppState) (e : Event) (hInv : SingleFlight s) :
    SingleFlight (step s e).1 := by
  cases e with
  | clickAnalyze =>
    cases hl : s.loading with
    | true => simpa [step, hl] using hInv
    | false =>
      simp only [step, hl, Bool.false_eq_true, if_false]
      exact start_single_flight false s hInv hl
  | clickRegenerate =>
    cases hl : s.loading with
    | true => simpa [step, hl] using hInv
    | false =>
      cases hr : s.result with
      | none => simpa [step, hl, hr] using hInv
      | some r =>
        simp only [step, hl, Bool.false_eq_true, if_false, hr]
        exact start_single_flight true s hInv hl
  | settle i o =>
    cases hp : s.pending[i]? with
    | none => simpa [step, hp] using hInv
    | some p =>
      have he : s.pending.eraseIdx i = [] := pending_eraseIdx_nil _ _ _ hInv.1 hp
      cases o with
      | ok r => refine ⟨?_, ?_⟩ <;> simp [step, hp, handleAnalyzeSettle, he]
      | err m => refine ⟨?_, ?_⟩ <;> simp [step, hp, handleAnalyzeSettle, he]
  | typeText t => exact hInv
  | loadFile t => exact hInv
  | selectSample k =>
    cases hk : SAMPLES.lookup k with
    | none => simpa [step, hk] using hInv
    | some body => simpa [step, hk] using hInv
  | clickClear => exact hInv
  | initDone online => exact hInv
  | setLanguageTo l =>
    simp only [step]
    split <;> exact hInv
  | setModeTo m =>
    simp only [step]
    split <;> exact hInv

/-- The single-flight invariant holds in the initial state. -/
theorem initState_single_flight : SingleFlight initState := by
  constructor <;> simp [initState, SingleFlight]

/-- The single-flight invariant holds in every reachable state. -/
theorem runState_single_flight (es : List Event) : SingleFlight (runState initState es) := by
  suffices h : ∀ s, SingleFlight s → SingleFlight (runState s es) from
    h initState initState_single_flight
  induction es with
  | nil => intro s h; exact h
  | cons e es ih => intro s h; exact ih (step s e).1 (step_single_flight s e h)

/-! ### Claim theorems -/

/-- Claim C1: overlap of two submissions is handled by the reject/ignore
policy, deterministically, for every interleaving of events: in every
reachable state at most one analyze call is unsettled and `loading` is set
exactly while one is; and while one is in flight, both submission entry
points (the Analyze button and the Regenerate Alternative button) are
inoperable, so a second submission attempt leaves the state unchanged and
performs no effect — in particular no network call — and hence no stale
response can ever overwrite the state of a later request. -/
theorem claim1_overlap_policy (es : List Event) :
    (runState initState es).pending.length ≤ 1 ∧
    ((runState initState es).loading = true ↔ (runState initState es).pending ≠ []) ∧
    ((runState initState es).loading = true →
      step (runState initState es) Event.clickAnalyze = (runState initState es, []) ∧
      step (runState initState es) Event.clickRegenerate = (runState initState es, [])) := by
  obtain ⟨h1, h2⟩ := runState_single_flight es
  exact ⟨h1, h2, fun h => ⟨by simp [step, h], by simp [step, h]⟩⟩

/-- Witness for C1: after one accepted submission a request is in flight, and
both submission entry points are then no-ops. -/
theorem claim1_overlap_policy_witness :
    (runState initState [Event.clickAnalyze]).loading = true ∧
    step (runState initState [Event.clickAnalyze]) Event.clickAnalyze =
      (runState initState [Event.clickAnalyze], []) ∧
    step (runState initState [Event.clickAnalyze]) Event.clickRegenerate =
      (runState initState [Event.clickAnalyze], []) := by
  have h : (runState initState [Event.clickAnalyze]).loading = true := by decide
  exact ⟨h, (claim1_overlap_policy [Event.clickAnalyze]).2.2 h⟩

/-- All-whitespace strings trim to the empty string. -/
theorem jsTrim_of_all_whitespace (s : String) (h : s.data.all jsWhitespace = true) :
    jsTrim s = "" := by
  have h1 : s.data.dropWhile jsWhitespace = [] := by
    rw [List.dropWhile_eq_nil_iff]
    intro x hx
    exact List.all_eq_true.mp h x hx
  unfold jsTrim
  rw [h1]
  rfl

/-- Claim C2: submitting with a buffer that is empty or all whitespace is a
complete no-op — the state (request flags, result, error, log) is unchanged
and no effect, in particular no network call and no log append, is performed;
this holds for the raw handler and for both submission entry points. -/
theorem claim2_blank_submit_noop (s : AppState) (b : Bool)
    (h : s.code.data.all jsWhitespace = true) :
    handleAnalyzeStart b s = (s, []) ∧
    step s Event.clickAnalyze = (s, []) ∧
    step s Event.clickRegenerate = (s, []) := by
  have ht : jsTrim s.code = "" := jsTrim_of_all_whitespace s.code h
  have h0 : ∀ b', handleAnalyzeStart b' s = (s, []) := by
    intro b'
    simp [handleAnalyzeStart, ht]
  refine ⟨h0 b, ?_, ?_⟩
  · cases hl : s.loading <;> simp [step, hl, h0]
  · cases hl : s.loading <;> cases hr : s.result <;> simp [step, hl, hr, h0]

/-- Witness for C2: a concrete whitespace-only buffer. -/
theorem claim2_blank_submit_noop_witness :
    handleAnalyzeStart false { initState with code := "  \n\t  " } =
      ({ initState with code := "  \n\t  " }, []) ∧
    step { initState with code := "  \n\t  " } Event.clickAnalyze =
      ({ initState with code := "  \n\t  " }, []) ∧
    step { initState with code := "  \n\t  " } Event.clickRegenerate =
      ({ initState with code := "  \n\t  " }, []) :=
  claim2_blank_submit_noop { initState with code := "  \n\t  " } false (by decide)

/-- Claim C3: the activity log built by folding `addLog` over any sequence of
appended entries holds at most 25 entries, and once more than 25 entries have
been appended it is exactly the suffix of the most recent 25, oldest first —
so the oldest entries are dropped and no retained entry is altered or
reordered. -/
theorem claim3_log_ring_bound (es : List LogEntry) :
    (es.foldl addLog []).length ≤ 25 ∧
    (25 < es.length → es.foldl addLog [] = es.drop (es.length - 25)) := by
  have hf := foldl_addLog_sliceLast es [] (by simp)
  rw [List.nil_append] at hf
  constructor
  · rw [hf]
    simp only [sliceLast, List.length_drop]
    omega
  · intro _
    rw [hf]
    rfl

/-- Witness for C3: 26 appends retain exactly the most recent 25. -/
theorem claim3_log_ring_bound_witness :
    25 < (List.replicate 26 (⟨"x", LogType.info⟩ : LogEntry)).length ∧
    (List.replicate 26 (⟨"x", LogType.info⟩ : LogEntry)).foldl addLog [] =
      (List.replicate 26 (⟨"x", LogType.info⟩ : LogEntry)).drop
        ((List.replicate 26 (⟨"x", LogType.info⟩ : LogEntry)).length - 25) :=
  ⟨by decide, (claim3_log_ring_bound _).2 (by decide)⟩

/-- Claim C4: a later failed submission never erases a previously retained
successful result.  After a submission that succeeded with `R1` and a later
submission that failed with message `E`, the result exposed to the rendering
layer is still `R1`, while the error `E` is stored and its error-level log
entry is in the visible activity log. -/
theorem claim4_failed_keeps_result (s : AppState) (b1 b2 : Bool)
    (R1 : CodeReviewResult) (E : String) (h : jsTrim s.code ≠ "") :
    renderedResult (submitRun b2 (.err E) (submitRun b1 (.ok R1) s)) = some R1 ∧
    (submitRun b2 (.err E) (submitRun b1 (.ok R1) s)).error = some E ∧
    (⟨"Error: " ++ E, LogType.err⟩ : LogEntry) ∈
      (submitRun b2 (.err E) (submitRun b1 (.ok R1) s)).logs := by
  refine ⟨?_, ?_, ?_⟩ <;>
    simp [submitRun, handleAnalyzeStart, handleAnalyzeSettle, renderedResult, if_neg h,
      mem_addLog_self]

/-- Witness for C4: the scenario run from the initial state. -/
theorem claim4_failed_keeps_result_witness :
    renderedResult (submitRun false (.err "boom") (submitRun false (.ok demoResult) initState)) =
      some demoResult ∧
    (submitRun false (.err "boom") (submitRun false (.ok demoResult) initState)).error =
      some "boom" ∧
    (⟨"Error: " ++ "boom", LogType.err⟩ : LogEntry) ∈
      (submitRun false (.err "boom") (submitRun false (.ok demoResult) initState)).logs :=
  claim4_failed_keeps_result initState false false demoResult "boom" (by decide)

/-- Claim C6: a submission on a non-blank buffer settles in exactly one
terminal state once the network call completes: the in-flight flag is cleared,
the derived request state is `succeeded` on resolution and `failed` on
rejection (never both, never still in flight), and every failure is absorbed
into the `failed` state plus an error-level log entry rather than escaping
`submit` — the handlers are total functions. -/
theorem claim6_submit_settles (s : AppState) (b : Bool) (o : Outcome)
    (h : jsTrim s.code ≠ "") :
    (submitRun b o s).loading = false ∧
    requestStateOf (submitRun b o s) =
      (match o with
       | .ok r => RequestState.succeeded r
       | .err m => RequestState.failed m) ∧
    (∀ m, o = .err m →
      (⟨"Error: " ++ m, LogType.err⟩ : LogEntry) ∈ (submitRun b o s).logs) := by
  cases o with
  | ok r =>
    refine ⟨?_, ?_, ?_⟩
    · simp [submitRun, handleAnalyzeStart, handleAnalyzeSettle, if_neg h]
    · simp [submitRun, handleAnalyzeStart, handleAnalyzeSettle, requestStateOf, if_neg h]
    · intro m hm
      exact absurd hm (by simp)
  | err m =>
    refine ⟨?_, ?_, ?_⟩
    · simp [submitRun, handleAnalyzeStart, handleAnalyzeSettle, if_neg h]
    · simp [submitRun, handleAnalyzeStart, handleAnalyzeSettle, requestStateOf, if_neg h]
    · intro m' hm'
      cases hm'
      simp [submitRun, handleAnalyzeStart, handleAnalyzeSettle, if_neg h, mem_addLog_self]

/-- Witness for C6: a failing call from the initial state settles in the
`failed` state with its error log entry. -/
theorem claim6_submit_settles_witness :
    (submitRun false (.err "boom") initState).loading = false ∧
    requestStateOf (submitRun false (.err "boom") initState) =
      RequestState.failed "boom" ∧
    (∀ m, Outcome.err "boom" = Outcome.err m →
      (⟨"Error: " ++ m, LogType.err⟩ : LogEntry) ∈
        (submitRun false (.err "boom") initState).logs) :=
  claim6_submit_settles initState false (.err "boom") (by decide)

/-- Claim C7: on a non-blank buffer a submission performs exactly this effect
sequence, in order: (1) enter the in-flight state and clear any previous
error; (2) append the initiation log entry naming fresh-versus-regenerate,
the persona mode and the language; (3) invoke the network client; then on
resolution (4) store the result and append the findings-count log entry, or
on rejection (5) store the error message and append the error-level log entry
carrying it; settling also clears the in-flight flag. -/
theorem claim7_effect_sequence (s : AppState) (b : Bool) (o : Outcome)
    (h : jsTrim s.code ≠ "") :
    (handleAnalyzeStart b s).2 ++ (handleAnalyzeSettle o (handleAnalyzeStart b s).1).2 =
      [Effect.setLoading true, Effect.setError none,
       Effect.logAppend
         ((if b then "Regenerating alternative" else "Initiating") ++ " " ++
           s.mode.str ++ " analysis for " ++ s.language ++ "...") LogType.info,
       Effect.netAnalyze s.code s.language s.provider s.mode b] ++
      (match o with
       | .ok data =>
         [Effect.setResult (some data),
          Effect.logAppend ("Analysis complete: " ++ toString data.issues.length ++ " findings.")
            LogType.info,
          Effect.setLoading false]
       | .err m =>
         [Effect.setError (some m),
          Effect.logAppend ("Error: " ++ m) LogType.err,
          Effect.setLoading false]) := by
  cases o <;> simp [handleAnalyzeStart, handleAnalyzeSettle, if_neg h]

/-- Witness for C7: the effect trace of a concrete regenerate submission that
succeeds with no findings. -/
theorem claim7_effect_sequence_witness :
    (handleAnalyzeStart true initState).2 ++
      (handleAnalyzeSettle (.ok demoResult) (handleAnalyzeStart true initState).1).2 =
      [Effect.setLoading true, Effect.setError none,
       Effect.logAppend
         ((if true then "Regenerating alternative" else "Initiating") ++ " " ++
           initState.mode.str ++ " analysis for " ++ initState.language ++ "...") LogType.info,
       Effect.netAnalyze initState.code initState.language initState.provider initState.mode true] ++
      [Effect.setResult (some demoResult),
       Effect.logAppend ("Analysis complete: " ++ toString demoResult.issues.length ++ " findings.")
         LogType.info,
       Effect.setLoading false] :=
  claim7_effect_sequence initState true (.ok demoResult) (by decide)

/-- Claim C5: line annotation is a pure function of the line count and the
issue sequence; a line `i` is marked iff `1 ≤ i ≤ lineCount` and some issue
reports line `i`; out-of-range issues are silently excluded, each marked line
appears exactly once however many issues share it, and in particular five
lines with issues on lines 3, 3 and 9 mark exactly line 3. -/
theorem claim5_annotate_membership (lineCount : Nat) (issues : List CodeIssue) :
    ((annotate lineCount issues).Nodup ∧
     ∀ i, i ∈ annotate lineCount issues ↔
       (1 ≤ i ∧ i ≤ lineCount ∧ ∃ iss ∈ issues, iss.line = (i : Int))) ∧
    annotate 5 [demoIssue 3, demoIssue 3, demoIssue 9] = [3] := by
  refine ⟨⟨?_, ?_⟩, by decide⟩
  · exact List.Nodup.filter _ (List.Nodup.map (fun a b hab => by omega) (List.nodup_range lineCount))
  · intro i
    simp only [annotate, List.mem_filter, List.mem_map, List.mem_range, List.any_eq_true,
      beq_iff_eq]
    constructor
    · rintro ⟨⟨j, hj, rfl⟩, iss, hiss, he⟩
      exact ⟨by omega, by omega, iss, hiss, he⟩
    · rintro ⟨h1, h2, iss, hiss, he⟩
      exact ⟨⟨i - 1, by omega, by omega⟩, iss, hiss, he⟩

/-- Claim C8: the backend-reachability flag does not influence submission.
Starting a submission and settling its network call on a state that differs
only in the flag produce the same successor state apart from the untouched
flag and exactly the same effects (the same network call, result, error and
log entries); the flag is consumed only by the presentation label. -/
theorem claim8_backend_flag_noninterference (s : AppState) (flag b : Bool) (o : Outcome) :
    handleAnalyzeStart b { s with isBackendOnline := flag } =
      ({ (handleAnalyzeStart b s).1 with isBackendOnline := flag },
       (handleAnalyzeStart b s).2) ∧
    handleAnalyzeSettle o { s with isBackendOnline := flag } =
      ({ (handleAnalyzeSettle o s).1 with isBackendOnline := flag },
       (handleAnalyzeSettle o s).2) ∧
    backendLabel { s with isBackendOnline := flag } =
      (if flag then "Hybrid Bridge" else "Cloud Native") := by
  refine ⟨?_, ?_, rfl⟩
  · by_cases hc : jsTrim s.code = "" <;> simp [handleAnalyzeStart, hc]
  · cases o <;> simp [handleAnalyzeSettle]

/-- Claim C9: replacing the buffer through the file input, the sample-snippet
select or the Clear button sets the new text and resets the result to null
while leaving the error and the activity log untouched (record equality with
only `code` and `result` updated); typing in the editor replaces the text
without clearing the result, so the gutter still maps the previous result's
issues onto the edited buffer. -/
theorem claim9_buffer_replacement (s : AppState) (t k body : String)
    (hk : SAMPLES.lookup k = some body) :
    step s (.loadFile t) = ({ s with code := t, result := none }, []) ∧
    step s (.selectSample k) = ({ s with code := body, result := none }, []) ∧
    step s .clickClear = ({ s with code := "", result := none }, []) ∧
    step s (.typeText t) = ({ s with code := t }, []) ∧
    gutterMarks { s with code := t } = annotate (jsSplitNl t).length (issuesOf s.result) := by
  refine ⟨rfl, ?_, rfl, rfl, rfl⟩
  simp [step, hk]

/-- Witness for C9: loading the memory-leak sample into the initial state. -/
theorem claim9_buffer_replacement_witness :
    step initState (.loadFile "x") = ({ initState with code := "x", result := none }, []) ∧
    step initState (.selectSample "Memory Leak (JS)") =
      ({ initState with code := sampleMemoryLeak, result := none }, []) ∧
    step initState .clickClear = ({ initState with code := "", result := none }, []) ∧
    step initState (.typeText "x") = ({ initState with code := "x" }, []) ∧
    gutterMarks { initState with code := "x" } =
      annotate (jsSplitNl "x").length (issuesOf initState.result) :=
  claim9_buffer_replacement initState "x" "Memory Leak (JS)" sampleMemoryLeak (by decide)

/-- Claim C10: splitting the buffer on newline never yields an empty sequence,
so for every state — whatever the buffer, including empty — the telemetry
line count is at least 1 and the annotation domain of 1-based line numbers is
non-empty. -/
theorem claim10_line_count_positive (s : AppState) :
    jsSplitNl s.code ≠ [] ∧
    1 ≤ telemetryLineCount s ∧
    (List.range (telemetryLineCount s)).map (fun i => i + 1) ≠ [] := by
  have h : jsSplitNlChars s.code.data ≠ [] := jsSplitNlChars_ne_nil s.code.data
  have h0 : jsSplitNl s.code ≠ [] := by
    simp only [jsSplitNl, ne_eq, List.map_eq_nil_iff]
    exact h
  have h1 : 1 ≤ telemetryLineCount s := by
    simp only [telemetryLineCount]
    cases hx : jsSplitNl s.code with
    | nil => exact absurd hx h0
    | cons a l => simp
  refine ⟨h0, h1, fun hcon => ?_⟩
  have h2 := List.range_eq_nil.mp (List.map_eq_nil_iff.mp hcon)
  omega
